import Mathlib

/-!
Shallow embedding of `src/resources/buffer.rs` from sotrh/state-machine:
the CPU-mirrored, GPU-backed growable buffer (`BackedBuffer<T>`) and its
scoped batch builders (`Batch<T>`, `IndexedBatch<T>`).

Modelling conventions:
* Machine integers are `Nat`; the `u32` cast in `len()` is `% 2^32`.
* `wgpu::Buffer` is modelled as `GBuffer`: a byte size, a usage bitset, an
  identity id (fresh per allocation) and its byte content.  WebGPU buffers
  are zero-initialized at creation.
* `wgpu::Device` is the allocator: it hands out fresh buffer ids.
* `wgpu::Queue` is modelled as the ordered trace of `write_buffer` calls;
  an out-of-bounds write is a wgpu validation error and leaves the target
  content unchanged (the attempted call is still recorded in the trace).
* `Vec<T>` is `RVec`: a list plus a reserved capacity, growing with Rust's
  amortized rule `new_cap = max (2*cap) (len+1)` on push beyond capacity
  (the small-allocation minimum capacity of `RawVec` is not modelled; no
  theorem below depends on the exact grown capacity, only on `len ≤ cap`).
* `bytemuck::Pod` element types are a typeclass `Pod`: a fixed byte size
  and an encoding of each value as exactly that many bytes
  (`bytemuck::cast_slice` is the concatenation `castSlice`).
* Rust drop order for `IndexedBatch`: its own `Drop::drop` body (the index
  buffer commit) runs first, then its `batch` field is dropped, running
  `Batch::drop` (the vertex buffer commit).
-/

namespace BufferModel

/-- A byte of device memory (value < 256 where it matters; encodings below
always produce values < 256). -/
abbrev Byte := Nat

/-- The plain-data contract of `bytemuck::Pod + bytemuck::Zeroable`:
a fixed element byte size and a byte-exact serialization. -/
class Pod (α : Type) where
  sz : Nat
  enc : α → List Byte
  henc : ∀ a : α, (enc a).length = sz

/-- `bytemuck::cast_slice`: reinterpret a typed slice as raw bytes. -/
def castSlice {α : Type} [Pod α] (l : List α) : List Byte :=
  (l.map Pod.enc).flatten

/-- Little-endian 4-byte encoding of a `u32` value. -/
def encLE4 (n : Nat) : List Byte :=
  [n % 256, n / 256 % 256, n / 65536 % 256, n / 16777216 % 256]

/-- `u32` (the index element type) is `Pod` with 4-byte layout; `Nat`
values stand for `u32` values (writers below always stay below `2^32`). -/
instance : Pod Nat where
  sz := 4
  enc := encLE4
  henc := fun _ => rfl

/-- `std::vec::Vec<T>`: the element list plus the reserved capacity. -/
structure RVec (α : Type) where
  data : List α
  cap : Nat
deriving Repr, DecidableEq

/-- `Vec::push`: append one element, growing the reserved capacity by
Rust's amortized rule when full. -/
def RVec.push {α : Type} (v : RVec α) (x : α) : RVec α :=
  if v.data.length < v.cap then { data := v.data ++ [x], cap := v.cap }
  else { data := v.data ++ [x], cap := max (2 * v.cap) (v.data.length + 1) }

/-- `wgpu::BufferUsages::COPY_DST` (bit 3). -/
def COPY_DST : Nat := 8

/-- A `wgpu::Buffer`: identity id (fresh per allocation), byte size, usage
flags and current byte content (`content.length = size` for every buffer the
model creates; WebGPU zero-initializes). -/
structure GBuffer where
  id : Nat
  size : Nat
  usage : Nat
  content : List Byte
deriving Repr, DecidableEq

/-- The allocator side of `wgpu::Device`: a fresh-id counter. -/
structure Device where
  nextId : Nat
deriving Repr, DecidableEq

/-- `Device::create_buffer` (mapped_at_creation: false): a fresh,
zero-initialized buffer of the requested byte size. -/
def Device.createBuffer (d : Device) (size usage : Nat) : GBuffer × Device :=
  ({ id := d.nextId, size := size, usage := usage,
     content := List.replicate size 0 }, { nextId := d.nextId + 1 })

/-- `DeviceExt::create_buffer_init`: a fresh buffer sized and filled by the
initial contents. -/
def Device.createBufferInit (d : Device) (contents : List Byte) (usage : Nat) :
    GBuffer × Device :=
  ({ id := d.nextId, size := contents.length, usage := usage,
     content := contents }, { nextId := d.nextId + 1 })

/-- One recorded `Queue::write_buffer` call. -/
structure WriteEvent where
  bufId : Nat
  offset : Nat
  bytes : List Byte
deriving Repr, DecidableEq

/-- The queue, as the ordered trace of submitted writes. -/
abbrev Queue := List WriteEvent

/-- Overwrite `bytes` into `content` starting at byte `offset`
(meaningful when `offset + bytes.length ≤ content.length`). -/
def writeBytes (content : List Byte) (offset : Nat) (bytes : List Byte) :
    List Byte :=
  content.take offset ++ bytes ++ content.drop (offset + bytes.length)

/-- `Queue::write_buffer`: record the call; update the content when the
range is in bounds (out of bounds is a wgpu validation error: the buffer
is left unchanged). -/
def queueWrite (q : Queue) (b : GBuffer) (offset : Nat) (bytes : List Byte) :
    GBuffer × Queue :=
  (if offset + bytes.length ≤ b.size
     then { b with content := writeBytes b.content offset bytes }
     else b,
   q ++ [{ bufId := b.id, offset := offset, bytes := bytes }])

/-- `BackedBuffer<T>` (buffer.rs lines 3-8). -/
structure BackedBuffer (α : Type) where
  data : RVec α
  buffer : GBuffer
  usage : Nat
  version : Nat
deriving Repr, DecidableEq

/-- `BackedBuffer::with_capacity` (buffer.rs lines 11-28). -/
def BackedBuffer.withCapacity (α : Type) [Pod α] (d : Device)
    (capacity usage : Nat) : BackedBuffer α × Device :=
  let usage' := usage ||| COPY_DST
  let (buf, d') := d.createBuffer (capacity * Pod.sz α) usage'
  ({ data := { data := [], cap := capacity }, buffer := buf,
     usage := usage', version := 0 }, d')

/-- `BackedBuffer::with_data` (buffer.rs lines 30-42).  The caller's `Vec`
is taken as-is; its reserved capacity is its length. -/
def BackedBuffer.withData {α : Type} [Pod α] (d : Device) (data : List α)
    (usage : Nat) : BackedBuffer α × Device :=
  let usage' := usage ||| COPY_DST
  let (buf, d') := d.createBufferInit (castSlice data) usage'
  ({ data := { data := data, cap := data.length }, buffer := buf,
     usage := usage', version := 0 }, d')

/-- `BackedBuffer::len` (buffer.rs lines 44-46): `self.data.len() as u32`. -/
def BackedBuffer.len {α : Type} (b : BackedBuffer α) : Nat :=
  b.data.data.length % 2 ^ 32

/-- `BackedBuffer::version` (buffer.rs lines 48-50). -/
def BackedBuffer.versionOf {α : Type} (b : BackedBuffer α) : Nat :=
  b.version

/-- `BackedBuffer::update` (buffer.rs lines 75-78): run the mutator on the
mirror slice, then re-upload the whole mirror at byte offset 0.  The Rust
mutator receives `&mut [T]`, a fixed-length view; length preservation of
`m` is a hypothesis of the theorems about `update`. -/
def BackedBuffer.update {α : Type} [Pod α] (b : BackedBuffer α) (q : Queue)
    (m : List α → List α) : BackedBuffer α × Queue :=
  let data' := m b.data.data
  let b' := { b with data := { data := data', cap := b.data.cap } }
  let (buf, q') := queueWrite q b'.buffer 0 (castSlice data')
  ({ b' with buffer := buf }, q')

/-- `Batch::new` records the mirror length at batch creation
(buffer.rs lines 93-104, field `start_vertex`). -/
def batchStart {α : Type} (b : BackedBuffer α) : Nat :=
  b.data.data.length

/-- `Batch::push` (buffer.rs lines 106-109): host-only append to the
owning buffer's mirror. -/
def batchPush {α : Type} (b : BackedBuffer α) (v : α) : BackedBuffer α :=
  { b with data := b.data.push v }

/-- All pushes of one batch, in order. -/
def pushAll {α : Type} (b : BackedBuffer α) (pushes : List α) : BackedBuffer α :=
  pushes.foldl batchPush b

/-- `Batch::drop` (buffer.rs lines 112-139): scope-exit commit.  If nothing
was pushed, do nothing; else if the mirror's reserved-storage byte size
exceeds the device buffer's byte size, allocate a fresh buffer of that
size, upload the whole mirror and bump `version`; else partial-write the
new suffix at its byte offset. -/
def batchDrop {α : Type} [Pod α] (startVertex : Nat) (b : BackedBuffer α)
    (d : Device) (q : Queue) : BackedBuffer α × Device × Queue :=
  if startVertex < b.data.data.length then
    let size := b.data.cap * Pod.sz α
    if b.buffer.size < size then
      let (newBuf, d') := d.createBuffer size b.usage
      let (newBuf', q') := queueWrite q newBuf 0 (castSlice b.data.data)
      ({ b with buffer := newBuf', version := b.version + 1 }, d', q')
    else
      let offset := startVertex * Pod.sz α
      let (buf, q') :=
        queueWrite q b.buffer offset (castSlice (b.data.data.drop startVertex))
      ({ b with buffer := buf }, d, q')
  else (b, d, q)

/-- A whole `batch` scope: open at the current length, push every element,
drop at scope exit (buffer.rs lines 52-58 and 112-139). -/
def runBatch {α : Type} [Pod α] (b : BackedBuffer α) (pushes : List α)
    (d : Device) (q : Queue) : BackedBuffer α × Device × Queue :=
  batchDrop (batchStart b) (pushAll b pushes) d q

/-- `IndexedBatch::vertex` (buffer.rs lines 162-166): push the current
vertex count (`len()`, a `u32`) as a new index entry, then push the vertex. -/
def ibVertex {α : Type} (bv : BackedBuffer α) (bi : BackedBuffer Nat) (v : α) :
    BackedBuffer α × BackedBuffer Nat :=
  let bi' := { bi with data := bi.data.push bv.len }
  (batchPush bv v, bi')

/-- `IndexedBatch::line` (buffer.rs lines 169-173): `vertex a` then
`vertex b`. -/
def ibLine {α : Type} (bv : BackedBuffer α) (bi : BackedBuffer Nat)
    (a b : α) : BackedBuffer α × BackedBuffer Nat :=
  let (bv', bi') := ibVertex bv bi a
  ibVertex bv' bi' b

/-- All `vertex` pushes of one indexed batch, in order. -/
def ibPushAll {α : Type} (bv : BackedBuffer α) (bi : BackedBuffer Nat)
    (vs : List α) : BackedBuffer α × BackedBuffer Nat :=
  vs.foldl (fun p v => ibVertex p.1 p.2 v) (bv, bi)

/-- The index-buffer half of `IndexedBatch::drop` (buffer.rs lines
177-202).  Faithful to the source: both the reserved-size computation
(line 179) and the partial-write offset (line 194) use `size_of::<T>()`
— the VERTEX element size `Pod.sz α` — not the index element size 4. -/
def indexedDropIndices (α : Type) [Pod α] (startIndex : Nat)
    (bi : BackedBuffer Nat) (d : Device) (q : Queue) :
    BackedBuffer Nat × Device × Queue :=
  if startIndex < bi.data.data.length then
    let size := bi.data.cap * Pod.sz α
    if bi.buffer.size < size then
      let (newBuf, d') := d.createBuffer size bi.usage
      let (newBuf', q') := queueWrite q newBuf 0 (castSlice bi.data.data)
      ({ bi with buffer := newBuf', version := bi.version + 1 }, d', q')
    else
      let offset := startIndex * Pod.sz α
      let (buf, q') :=
        queueWrite q bi.buffer offset (castSlice (bi.data.data.drop startIndex))
      ({ bi with buffer := buf }, d, q')
  else (bi, d, q)

/-- Full scope exit of an `IndexedBatch`: per Rust drop order, the
`IndexedBatch::drop` body (index commit) runs first, then the `batch`
field is dropped, running `Batch::drop` (vertex commit). -/
def indexedBatchDrop {α : Type} [Pod α] (startVertex startIndex : Nat)
    (bv : BackedBuffer α) (bi : BackedBuffer Nat) (d : Device) (q : Queue) :
    BackedBuffer α × BackedBuffer Nat × Device × Queue :=
  let (bi', d', q') := indexedDropIndices α startIndex bi d q
  let (bv', d'', q'') := batchDrop startVertex bv d' q'
  (bv', bi', d'', q'')

/-- A whole `batch_indexed` scope (buffer.rs lines 61-68, 148-159,
176-203): record both start markers, run the vertex pushes, drop. -/
def runIndexedBatch {α : Type} [Pod α] (bv : BackedBuffer α)
    (bi : BackedBuffer Nat) (vs : List α) (d : Device) (q : Queue) :
    BackedBuffer α × BackedBuffer Nat × Device × Queue :=
  let startVertex := bv.data.data.length
  let startIndex := bi.data.data.length
  let (bv', bi') := ibPushAll bv bi vs
  indexedBatchDrop startVertex startIndex bv' bi' d q

/-- The index-element byte size the spec prescribes for the index buffer's
own reallocation decision: its reserved storage measured in 4-byte
(`u32`) index elements against its own device buffer's byte size.
Modelled from the spec for comparison with the source's decision. -/
def specIndexRealloc (bi : BackedBuffer Nat) : Bool :=
  decide (bi.buffer.size < bi.data.cap * 4)

/-- The decision the source actually takes for the index buffer
(buffer.rs lines 179-180), parameterized by the vertex element type. -/
def codeIndexRealloc (α : Type) [Pod α] (bi : BackedBuffer Nat) : Bool :=
  decide (bi.buffer.size < bi.data.cap * Pod.sz α)

/-! Concrete record types used to instantiate the generic theorems. -/

/-- An 8-byte plain-data vertex record (e.g. a 2-D position of two 4-byte
scalars), satisfying the plain-data contract. -/
structure V8 where
  x : Nat
  y : Nat
deriving Repr, DecidableEq

instance : Pod V8 where
  sz := 8
  enc := fun v => encLE4 v.x ++ encLE4 v.y
  henc := fun _ => rfl

/-- A 4-byte plain-data record, for scalar-sized witnesses. -/
structure V4 where
  x : Nat
deriving Repr, DecidableEq

instance : Pod V4 where
  sz := 4
  enc := fun v => encLE4 v.x
  henc := fun _ => rfl

/-! Concrete scenario: a vertex `BackedBuffer<V8>` with capacity 4 and an
index `BackedBuffer<u32>` with capacity 4, then indexed batches each
pushing one vertex.  Exercises `IndexedBatch::drop` on realistic input. -/

/-- Initial allocator. -/
def dev0 : Device := { nextId := 0 }

/-- Vertex buffer: capacity 4 of 8-byte records (device size 32, id 0). -/
def scenV : BackedBuffer V8 × Device := BackedBuffer.withCapacity V8 dev0 4 0

/-- Index buffer: capacity 4 of `u32` (device size 16, id 1). -/
def scenI : BackedBuffer Nat × Device :=
  BackedBuffer.withCapacity Nat scenV.2 4 0

/-- First indexed batch: push one vertex, scope exits. -/
def scenRun1 : BackedBuffer V8 × BackedBuffer Nat × Device × Queue :=
  runIndexedBatch scenV.1 scenI.1 [{ x := 5, y := 6 }] scenI.2 []

/-- Second indexed batch: push one more vertex, scope exits. -/
def scenRun2 : BackedBuffer V8 × BackedBuffer Nat × Device × Queue :=
  runIndexedBatch scenRun1.1 scenRun1.2.1 [{ x := 7, y := 8 }]
    scenRun1.2.2.1 scenRun1.2.2.2

/-! Operation sequences over a vertex buffer / index buffer pair, for the
whole-history invariants (version monotonicity). -/

/-- Joint state: one vertex `BackedBuffer<T>`, one index `BackedBuffer<u32>`,
the allocator and the queue trace. -/
abbrev St (α : Type) := BackedBuffer α × BackedBuffer Nat × Device × Queue

/-- One completed operation of the public interface. -/
inductive Op (α : Type) where
  | upd (m : List α → List α)
  | updIdx (m : List Nat → List Nat)
  | batch (pushes : List α)
  | ibatch (vs : List α)

/-- Run one completed operation. -/
def applyOp {α : Type} [Pod α] (st : St α) : Op α → St α
  | .upd m =>
    let (b, q) := st.1.update st.2.2.2 m
    (b, st.2.1, st.2.2.1, q)
  | .updIdx m =>
    let (b, q) := st.2.1.update st.2.2.2 m
    (st.1, b, st.2.2.1, q)
  | .batch ps =>
    let (b, d, q) := runBatch st.1 ps st.2.2.1 st.2.2.2
    (b, st.2.1, d, q)
  | .ibatch vs =>
    runIndexedBatch st.1 st.2.1 vs st.2.2.1 st.2.2.2

/-- Run a sequence of completed operations. -/
def applyOps {α : Type} [Pod α] (st : St α) (ops : List (Op α)) : St α :=
  ops.foldl applyOp st

/-- Whether a plain batch of `ps` pushes on `b` triggers a device-buffer
reallocation at scope exit (buffer.rs lines 114-116). -/
def batchRealloc {α : Type} [Pod α] (b : BackedBuffer α) (ps : List α) : Bool :=
  !ps.isEmpty && decide (b.buffer.size < (pushAll b ps).data.cap * Pod.sz α)

/-- Whether the vertex side of an indexed batch of `vs` pushes triggers a
reallocation at scope exit. -/
def ibatchVtxRealloc {α : Type} [Pod α] (bv : BackedBuffer α)
    (bi : BackedBuffer Nat) (vs : List α) : Bool :=
  !vs.isEmpty &&
    decide (bv.buffer.size < (ibPushAll bv bi vs).1.data.cap * Pod.sz α)

/-- Whether the index side of an indexed batch of `vs` pushes triggers a
reallocation at scope exit (with the source's vertex-element-size slip,
buffer.rs line 179). -/
def ibatchIdxRealloc {α : Type} [Pod α] (bv : BackedBuffer α)
    (bi : BackedBuffer Nat) (vs : List α) : Bool :=
  !vs.isEmpty &&
    decide (bi.buffer.size < (ibPushAll bv bi vs).2.data.cap * Pod.sz α)

/-- Concrete input for the `update` frame theorem: a two-record buffer and
the reversing mutator. -/
def w10buf : BackedBuffer V4 :=
  (BackedBuffer.withData dev0 [{ x := 1 }, { x := 2 }] 0).1

/-- Concrete input for the batch-commit theorem: a fresh one-record-capacity
buffer of 4-byte records. -/
def w2buf : BackedBuffer V4 := (BackedBuffer.withCapacity V4 dev0 1 0).1

/-- The allocator state after constructing `w2buf`. -/
def w2dev : Device := (BackedBuffer.withCapacity V4 dev0 1 0).2

/-- Concrete first batch for the amortized-growth theorem: capacity 2,
three records pushed. -/
def w7r1 : BackedBuffer V4 × Device × Queue :=
  runBatch (BackedBuffer.withCapacity V4 dev0 2 0).1
    [{ x := 1 }, { x := 2 }, { x := 3 }]
    (BackedBuffer.withCapacity V4 dev0 2 0).2 []

/-- Concrete post-push state of the first scenario batch, for instantiating
the index-commit-first theorem. -/
def w5pair : BackedBuffer V8 × BackedBuffer Nat :=
  ibPushAll scenV.1 scenI.1 [{ x := 5, y := 6 }]

/-! Basic lemmas about the model. -/

theorem castSlice_nil {α : Type} [Pod α] : castSlice ([] : List α) = [] := rfl

theorem castSlice_append {α : Type} [Pod α] (l₁ l₂ : List α) :
    castSlice (l₁ ++ l₂) = castSlice l₁ ++ castSlice l₂ := by
  simp [castSlice]

theorem castSlice_length {α : Type} [Pod α] (l : List α) :
    (castSlice l).length = l.length * Pod.sz α := by
  induction l with
  | nil => simp [castSlice]
  | cons a t ih =>
    simp only [castSlice, List.map_cons, List.flatten_cons, List.length_append,
      List.length_cons] at *
    rw [ih, Pod.henc]
    ring

theorem pod_nat_sz : Pod.sz Nat = 4 := rfl

theorem RVec.push_data {α : Type} (v : RVec α) (x : α) :
    (v.push x).data = v.data ++ [x] := by
  unfold RVec.push; split <;> rfl

theorem RVec.push_le_cap {α : Type} (v : RVec α) (x : α)
    (h : v.data.length ≤ v.cap) : (v.push x).data.length ≤ (v.push x).cap := by
  unfold RVec.push
  split
  · rename_i hlt
    simp only [List.length_append, List.length_cons, List.length_nil]
    omega
  · simp only [List.length_append, List.length_cons, List.length_nil]
    omega

theorem RVec.push_cap_of_lt {α : Type} (v : RVec α) (x : α)
    (h : v.data.length < v.cap) : (v.push x).cap = v.cap := by
  unfold RVec.push
  simp [h]

theorem pushAll_data {α : Type} (ps : List α) (b : BackedBuffer α) :
    (pushAll b ps).data.data = b.data.data ++ ps := by
  induction ps generalizing b with
  | nil => simp [pushAll]
  | cons p t ih =>
    show (pushAll (batchPush b p) t).data.data = _
    rw [ih]
    simp [batchPush, RVec.push_data]

theorem pushAll_buffer {α : Type} (ps : List α) (b : BackedBuffer α) :
    (pushAll b ps).buffer = b.buffer := by
  induction ps generalizing b with
  | nil => rfl
  | cons p t ih => exact ih (batchPush b p)

theorem pushAll_version {α : Type} (ps : List α) (b : BackedBuffer α) :
    (pushAll b ps).version = b.version := by
  induction ps generalizing b with
  | nil => rfl
  | cons p t ih => exact ih (batchPush b p)

theorem pushAll_usage {α : Type} (ps : List α) (b : BackedBuffer α) :
    (pushAll b ps).usage = b.usage := by
  induction ps generalizing b with
  | nil => rfl
  | cons p t ih => exact ih (batchPush b p)

theorem pushAll_le_cap {α : Type} (ps : List α) (b : BackedBuffer α)
    (h : b.data.data.length ≤ b.data.cap) :
    (pushAll b ps).data.data.length ≤ (pushAll b ps).data.cap := by
  induction ps generalizing b with
  | nil => exact h
  | cons p t ih => exact ih (batchPush b p) (RVec.push_le_cap b.data p h)

theorem writeBytes_replicate_zero (n : Nat) (bs : List Byte) :
    writeBytes (List.replicate n 0) 0 bs =
      bs ++ List.replicate (n - bs.length) 0 := by
  simp [writeBytes, List.drop_replicate]

theorem ibVertex_fst {α : Type} (bv : BackedBuffer α) (bi : BackedBuffer Nat)
    (v : α) : (ibVertex bv bi v).1 = batchPush bv v := rfl

theorem ibPushAll_fst_data {α : Type} (vs : List α) (bv : BackedBuffer α)
    (bi : BackedBuffer Nat) :
    (ibPushAll bv bi vs).1.data.data = bv.data.data ++ vs := by
  induction vs generalizing bv bi with
  | nil => simp [ibPushAll]
  | cons v t ih =>
    show (ibPushAll (ibVertex bv bi v).1 (ibVertex bv bi v).2 t).1.data.data = _
    rw [ih]
    simp [ibVertex, batchPush, RVec.push_data]

theorem ibPushAll_snd_len {α : Type} (vs : List α) (bv : BackedBuffer α)
    (bi : BackedBuffer Nat) :
    (ibPushAll bv bi vs).2.data.data.length =
      bi.data.data.length + vs.length := by
  induction vs generalizing bv bi with
  | nil => simp [ibPushAll]
  | cons v t ih =>
    show (ibPushAll (ibVertex bv bi v).1 (ibVertex bv bi v).2 t).2.data.data.length = _
    rw [ih]
    simp [ibVertex, RVec.push_data]
    omega

theorem ibPushAll_fst_buffer {α : Type} (vs : List α) (bv : BackedBuffer α)
    (bi : BackedBuffer Nat) : (ibPushAll bv bi vs).1.buffer = bv.buffer := by
  induction vs generalizing bv bi with
  | nil => rfl
  | cons v t ih => exact ih (ibVertex bv bi v).1 (ibVertex bv bi v).2

theorem ibPushAll_fst_version {α : Type} (vs : List α) (bv : BackedBuffer α)
    (bi : BackedBuffer Nat) : (ibPushAll bv bi vs).1.version = bv.version := by
  induction vs generalizing bv bi with
  | nil => rfl
  | cons v t ih => exact ih (ibVertex bv bi v).1 (ibVertex bv bi v).2

theorem ibPushAll_snd_buffer {α : Type} (vs : List α) (bv : BackedBuffer α)
    (bi : BackedBuffer Nat) : (ibPushAll bv bi vs).2.buffer = bi.buffer := by
  induction vs generalizing bv bi with
  | nil => rfl
  | cons v t ih => exact ih (ibVertex bv bi v).1 (ibVertex bv bi v).2

theorem ibPushAll_snd_version {α : Type} (vs : List α) (bv : BackedBuffer α)
    (bi : BackedBuffer Nat) : (ibPushAll bv bi vs).2.version = bi.version := by
  induction vs generalizing bv bi with
  | nil => rfl
  | cons v t ih => exact ih (ibVertex bv bi v).1 (ibVertex bv bi v).2

/-- `Batch::drop` changes the version by exactly 1 when it reallocates and
by 0 otherwise. -/
theorem batchDrop_version {α : Type} [Pod α] (s : Nat) (b : BackedBuffer α)
    (d : Device) (q : Queue) :
    (batchDrop s b d q).1.version =
      b.version +
        (if s < b.data.data.length ∧ b.buffer.size < b.data.cap * Pod.sz α
          then 1 else 0) := by
  unfold batchDrop
  by_cases h1 : s < b.data.data.length
  · by_cases h2 : b.buffer.size < b.data.cap * Pod.sz α
    · simp [h1, h2, queueWrite, Device.createBuffer]
    · simp [h1, h2, queueWrite]
  · simp [h1]

theorem batchDrop_data {α : Type} [Pod α] (s : Nat) (b : BackedBuffer α)
    (d : Device) (q : Queue) : (batchDrop s b d q).1.data = b.data := by
  unfold batchDrop
  by_cases h1 : s < b.data.data.length
  · by_cases h2 : b.buffer.size < b.data.cap * Pod.sz α
    · simp [h1, h2, queueWrite, Device.createBuffer]
    · simp [h1, h2, queueWrite]
  · simp [h1]

/-- The index half of `IndexedBatch::drop` changes the index buffer's
version by exactly 1 when it reallocates and by 0 otherwise (the decision
uses the vertex element size, as the source does). -/
theorem indexedDropIndices_version {α : Type} [Pod α] (s : Nat)
    (bi : BackedBuffer Nat) (d : Device) (q : Queue) :
    (indexedDropIndices α s bi d q).1.version =
      bi.version +
        (if s < bi.data.data.length ∧ bi.buffer.size < bi.data.cap * Pod.sz α
          then 1 else 0) := by
  unfold indexedDropIndices
  by_cases h1 : s < bi.data.data.length
  · by_cases h2 : bi.buffer.size < bi.data.cap * Pod.sz α
    · simp [h1, h2, queueWrite, Device.createBuffer]
    · simp [h1, h2, queueWrite]
  · simp [h1]

theorem update_version {α : Type} [Pod α] (b : BackedBuffer α) (q : Queue)
    (m : List α → List α) : (b.update q m).1.version = b.version := rfl

theorem update_buffer_id {α : Type} [Pod α] (b : BackedBuffer α) (q : Queue)
    (m : List α → List α) : (b.update q m).1.buffer.id = b.buffer.id := by
  unfold BackedBuffer.update queueWrite
  simp only
  split <;> simp

theorem update_buffer_size {α : Type} [Pod α] (b : BackedBuffer α) (q : Queue)
    (m : List α → List α) : (b.update q m).1.buffer.size = b.buffer.size := by
  unfold BackedBuffer.update queueWrite
  simp only
  split <;> simp

theorem queueWrite_fst_id (q : Queue) (b : GBuffer) (offset : Nat)
    (bytes : List Byte) : (queueWrite q b offset bytes).1.id = b.id := by
  unfold queueWrite
  split <;> rfl

theorem queueWrite_fst_size (q : Queue) (b : GBuffer) (offset : Nat)
    (bytes : List Byte) : (queueWrite q b offset bytes).1.size = b.size := by
  unfold queueWrite
  split <;> rfl

theorem queueWrite_fst_content_of_le (q : Queue) (b : GBuffer) (offset : Nat)
    (bytes : List Byte) (h : offset + bytes.length ≤ b.size) :
    (queueWrite q b offset bytes).1.content = writeBytes b.content offset bytes := by
  unfold queueWrite
  rw [if_pos h]

theorem queueWrite_snd (q : Queue) (b : GBuffer) (offset : Nat)
    (bytes : List Byte) :
    (queueWrite q b offset bytes).2 =
      q ++ [{ bufId := b.id, offset := offset, bytes := bytes }] := rfl

theorem applyOp_upd_versions {α : Type} [Pod α] (st : St α)
    (m : List α → List α) :
    (applyOp st (Op.upd m)).1.version = st.1.version ∧
      (applyOp st (Op.upd m)).2.1.version = st.2.1.version :=
  ⟨rfl, rfl⟩

theorem applyOp_updIdx_versions {α : Type} [Pod α] (st : St α)
    (m : List Nat → List Nat) :
    (applyOp st (Op.updIdx m)).1.version = st.1.version ∧
      (applyOp st (Op.updIdx m)).2.1.version = st.2.1.version :=
  ⟨rfl, rfl⟩

theorem applyOp_batch_vtx_version {α : Type} [Pod α] (st : St α)
    (ps : List α) :
    (applyOp st (Op.batch ps)).1.version =
      st.1.version + (if batchRealloc st.1 ps then 1 else 0) := by
  show (runBatch st.1 ps st.2.2.1 st.2.2.2).1.version = _
  unfold runBatch
  rw [batchDrop_version, pushAll_version]
  congr 1
  by_cases he : ps = []
  · subst he
    simp [batchRealloc, batchStart, pushAll]
  · have hlt : batchStart st.1 < (pushAll st.1 ps).data.data.length := by
      rw [pushAll_data]
      simp only [batchStart, List.length_append]
      have := List.length_pos.mpr he
      omega
    rw [pushAll_buffer]
    by_cases hsz : st.1.buffer.size < (pushAll st.1 ps).data.cap * Pod.sz α
    · simp [batchRealloc, hlt, hsz, he]
    · simp [batchRealloc, hlt, hsz]

theorem applyOp_batch_idx_version {α : Type} [Pod α] (st : St α)
    (ps : List α) :
    (applyOp st (Op.batch ps)).2.1.version = st.2.1.version :=
  rfl

theorem applyOp_ibatch_vtx_version {α : Type} [Pod α] (st : St α)
    (vs : List α) :
    (applyOp st (Op.ibatch vs)).1.version =
      st.1.version + (if ibatchVtxRealloc st.1 st.2.1 vs then 1 else 0) := by
  show (runIndexedBatch st.1 st.2.1 vs st.2.2.1 st.2.2.2).1.version = _
  unfold runIndexedBatch indexedBatchDrop
  simp only
  rw [batchDrop_version, ibPushAll_fst_version]
  congr 1
  by_cases he : vs = []
  · subst he
    simp [ibatchVtxRealloc, ibPushAll]
  · have hlt : st.1.data.data.length < (ibPushAll st.1 st.2.1 vs).1.data.data.length := by
      rw [ibPushAll_fst_data]
      simp only [List.length_append]
      have := List.length_pos.mpr he
      omega
    rw [ibPushAll_fst_buffer]
    by_cases hsz :
        st.1.buffer.size < (ibPushAll st.1 st.2.1 vs).1.data.cap * Pod.sz α
    · simp [ibatchVtxRealloc, hlt, hsz, he]
    · simp [ibatchVtxRealloc, hlt, hsz]

theorem applyOp_ibatch_idx_version {α : Type} [Pod α] (st : St α)
    (vs : List α) :
    (applyOp st (Op.ibatch vs)).2.1.version =
      st.2.1.version + (if ibatchIdxRealloc st.1 st.2.1 vs then 1 else 0) := by
  show (runIndexedBatch st.1 st.2.1 vs st.2.2.1 st.2.2.2).2.1.version = _
  unfold runIndexedBatch indexedBatchDrop
  simp only
  rw [indexedDropIndices_version, ibPushAll_snd_version]
  congr 1
  by_cases he : vs = []
  · subst he
    simp [ibatchIdxRealloc, ibPushAll]
  · have hlt : st.2.1.data.data.length < (ibPushAll st.1 st.2.1 vs).2.data.data.length := by
      rw [ibPushAll_snd_len]
      have := List.length_pos.mpr he
      omega
    rw [ibPushAll_snd_buffer]
    by_cases hsz :
        st.2.1.buffer.size < (ibPushAll st.1 st.2.1 vs).2.data.cap * Pod.sz α
    · simp [ibatchIdxRealloc, hlt, hsz, he]
    · simp [ibatchIdxRealloc, hlt, hsz]

theorem applyOp_version_mono {α : Type} [Pod α] (st : St α) (op : Op α) :
    st.1.version ≤ (applyOp st op).1.version ∧
      st.2.1.version ≤ (applyOp st op).2.1.version := by
  cases op with
  | upd m => exact ⟨le_of_eq (applyOp_upd_versions st m).1.symm,
      le_of_eq (applyOp_upd_versions st m).2.symm⟩
  | updIdx m => exact ⟨le_of_eq (applyOp_updIdx_versions st m).1.symm,
      le_of_eq (applyOp_updIdx_versions st m).2.symm⟩
  | batch ps =>
    constructor
    · rw [applyOp_batch_vtx_version]
      omega
    · exact le_of_eq (applyOp_batch_idx_version st ps).symm
  | ibatch vs =>
    constructor
    · rw [applyOp_ibatch_vtx_version]
      omega
    · rw [applyOp_ibatch_idx_version]
      omega

theorem applyOps_version_mono {α : Type} [Pod α] (st : St α)
    (ops : List (Op α)) :
    st.1.version ≤ (applyOps st ops).1.version ∧
      st.2.1.version ≤ (applyOps st ops).2.1.version := by
  induction ops generalizing st with
  | nil => exact ⟨le_refl _, le_refl _⟩
  | cons op t ih =>
    have h1 := applyOp_version_mono st op
    have h2 := ih (applyOp st op)
    exact ⟨le_trans h1.1 h2.1, le_trans h1.2 h2.2⟩

/-! Claim theorems and their witnesses. -/

/-- C8: opening an Append Batch and letting its scope exit without any
push leaves the whole `BackedBuffer` untouched — `version()`, `len()` and
the device-buffer identity are unchanged and no device write is recorded
(the queue trace is unchanged). -/
theorem c8_noop_batch {α : Type} [Pod α] (b : BackedBuffer α) (d : Device)
    (q : Queue) :
    runBatch b [] d q = (b, d, q) ∧
      (runBatch b [] d q).1.versionOf = b.versionOf ∧
      (runBatch b [] d q).1.len = b.len ∧
      (runBatch b [] d q).1.buffer.id = b.buffer.id ∧
      (runBatch b [] d q).2.2 = q := by
  have h : runBatch b [] d q = (b, d, q) := by
    unfold runBatch pushAll batchDrop batchStart
    simp
  exact ⟨h, by rw [h], by rw [h], by rw [h], by rw [h]⟩

/-- C9: `with_capacity` yields a zero-length mirror and a zero-initialized
(never-written) device buffer of exactly `capacity * sizeof(T)` bytes
whose usage is the given flags plus `COPY_DST`; `with_data` yields a
mirror equal to the given records and a device buffer of exactly their
byte size already holding their bytes; `version()` is 0 after both. -/
theorem c9_constructors {α : Type} [Pod α] :
    (∀ (d : Device) (capacity usage : Nat),
      (BackedBuffer.withCapacity α d capacity usage).1.len = 0 ∧
      (BackedBuffer.withCapacity α d capacity usage).1.data.data = [] ∧
      (BackedBuffer.withCapacity α d capacity usage).1.buffer.size =
        capacity * Pod.sz α ∧
      (BackedBuffer.withCapacity α d capacity usage).1.buffer.usage =
        usage ||| COPY_DST ∧
      (BackedBuffer.withCapacity α d capacity usage).1.buffer.content =
        List.replicate (capacity * Pod.sz α) 0 ∧
      (BackedBuffer.withCapacity α d capacity usage).1.versionOf = 0) ∧
    (∀ (d : Device) (records : List α) (usage : Nat),
      (BackedBuffer.withData d records usage).1.data.data = records ∧
      (BackedBuffer.withData d records usage).1.buffer.size =
        records.length * Pod.sz α ∧
      (BackedBuffer.withData d records usage).1.buffer.content =
        castSlice records ∧
      (BackedBuffer.withData d records usage).1.buffer.usage =
        usage ||| COPY_DST ∧
      (BackedBuffer.withData d records usage).1.versionOf = 0) := by
  constructor
  · intro d capacity usage
    exact ⟨rfl, rfl, rfl, rfl, rfl, rfl⟩
  · intro d records usage
    refine ⟨rfl, ?_, rfl, rfl, rfl⟩
    show (castSlice records).length = records.length * Pod.sz α
    exact castSlice_length records

/-- C10: `update` leaves `len()`, the device-buffer identity and
`version()` unchanged, for every mutator; the mutator acts on a
fixed-length mutable slice, expressed here as the length-preservation
hypothesis that Rust's `&mut [T]` type enforces. -/
theorem c10_update_frame {α : Type} [Pod α] (b : BackedBuffer α) (q : Queue)
    (m : List α → List α)
    (hm : (m b.data.data).length = b.data.data.length) :
    (b.update q m).1.len = b.len ∧
      (b.update q m).1.versionOf = b.versionOf ∧
      (b.update q m).1.buffer.id = b.buffer.id ∧
      (b.update q m).1.buffer.size = b.buffer.size := by
  refine ⟨?_, rfl, update_buffer_id b q m, update_buffer_size b q m⟩
  show (m b.data.data).length % 2 ^ 32 = b.data.data.length % 2 ^ 32
  rw [hm]

theorem c10_update_frame_witness :
    (List.reverse w10buf.data.data).length = w10buf.data.data.length ∧
      ((w10buf.update [] List.reverse).1.len = w10buf.len ∧
        (w10buf.update [] List.reverse).1.versionOf = w10buf.versionOf ∧
        (w10buf.update [] List.reverse).1.buffer.id = w10buf.buffer.id ∧
        (w10buf.update [] List.reverse).1.buffer.size =
          w10buf.buffer.size) :=
  ⟨by decide, c10_update_frame w10buf [] List.reverse (by decide)⟩

/-- C6: `vertex` appends the record to the vertex mirror and appends one
index entry holding the vertex count before the push (below the `u32`
range); hence two `line` calls pushing `v0..v3` append exactly the four
assigned vertex positions, in push order, to the index mirror. -/
theorem c6_indexed_push {α : Type} [Pod α] :
    (∀ (bv : BackedBuffer α) (bi : BackedBuffer Nat) (v : α),
      bv.data.data.length < 2 ^ 32 →
      (ibVertex bv bi v).1.data.data = bv.data.data ++ [v] ∧
      (ibVertex bv bi v).2.data.data =
        bi.data.data ++ [bv.data.data.length]) ∧
    (∀ (bv : BackedBuffer α) (bi : BackedBuffer Nat) (v0 v1 v2 v3 : α),
      bv.data.data.length + 4 ≤ 2 ^ 32 →
      (ibLine (ibLine bv bi v0 v1).1 (ibLine bv bi v0 v1).2 v2 v3).2.data.data =
        bi.data.data ++
          [bv.data.data.length, bv.data.data.length + 1,
            bv.data.data.length + 2, bv.data.data.length + 3] ∧
      (ibLine (ibLine bv bi v0 v1).1 (ibLine bv bi v0 v1).2 v2 v3).1.data.data =
        bv.data.data ++ [v0, v1, v2, v3]) := by
  constructor
  · intro bv bi v h
    refine ⟨by simp [ibVertex, batchPush, RVec.push_data], ?_⟩
    simp [ibVertex, RVec.push_data, BackedBuffer.len]
    omega
  · intro bv bi v0 v1 v2 v3 h
    constructor
    · simp [ibLine, ibVertex, batchPush, RVec.push_data, BackedBuffer.len]
      refine ⟨by omega, by omega, by omega, by omega⟩
    · simp [ibLine, ibVertex, batchPush, RVec.push_data]

theorem c6_indexed_push_witness :
    ((scenV.1.data.data.length < 2 ^ 32 ∧
        (ibVertex scenV.1 scenI.1 { x := 5, y := 6 }).1.data.data =
          scenV.1.data.data ++ [{ x := 5, y := 6 }] ∧
        (ibVertex scenV.1 scenI.1 { x := 5, y := 6 }).2.data.data =
          scenI.1.data.data ++ [scenV.1.data.data.length]) ∧
      (scenV.1.data.data.length + 4 ≤ 2 ^ 32 ∧
        (ibLine (ibLine scenV.1 scenI.1 { x := 1, y := 1 } { x := 2, y := 2 }).1
              (ibLine scenV.1 scenI.1 { x := 1, y := 1 } { x := 2, y := 2 }).2
              { x := 3, y := 3 } { x := 4, y := 4 }).2.data.data =
          scenI.1.data.data ++
            [scenV.1.data.data.length, scenV.1.data.data.length + 1,
              scenV.1.data.data.length + 2, scenV.1.data.data.length + 3])) :=
  ⟨⟨by decide, ((c6_indexed_push).1 scenV.1 scenI.1 { x := 5, y := 6 }
      (by decide)).1,
    ((c6_indexed_push).1 scenV.1 scenI.1 { x := 5, y := 6 } (by decide)).2⟩,
   by decide,
   ((c6_indexed_push).2 scenV.1 scenI.1 { x := 1, y := 1 } { x := 2, y := 2 }
      { x := 3, y := 3 } { x := 4, y := 4 } (by decide)).1⟩

/-- C3: `version()` is non-decreasing across every sequence of completed
operations (updates, batches, indexed batches), for the vertex buffer and
the index buffer alike; it grows by exactly 1 on a batch-scope-exit
commit that reallocates and by 0 on every other operation. -/
theorem c3_version_monotonic {α : Type} [Pod α] :
    (∀ (st : St α) (ops : List (Op α)),
      st.1.versionOf ≤ (applyOps st ops).1.versionOf ∧
      st.2.1.versionOf ≤ (applyOps st ops).2.1.versionOf) ∧
    (∀ (st : St α) (m : List α → List α),
      (applyOp st (Op.upd m)).1.versionOf = st.1.versionOf ∧
      (applyOp st (Op.upd m)).2.1.versionOf = st.2.1.versionOf) ∧
    (∀ (st : St α) (m : List Nat → List Nat),
      (applyOp st (Op.updIdx m)).1.versionOf = st.1.versionOf ∧
      (applyOp st (Op.updIdx m)).2.1.versionOf = st.2.1.versionOf) ∧
    (∀ (st : St α) (ps : List α),
      (applyOp st (Op.batch ps)).1.versionOf =
        st.1.versionOf + (if batchRealloc st.1 ps then 1 else 0) ∧
      (applyOp st (Op.batch ps)).2.1.versionOf = st.2.1.versionOf) ∧
    (∀ (st : St α) (vs : List α),
      (applyOp st (Op.ibatch vs)).1.versionOf =
        st.1.versionOf +
          (if ibatchVtxRealloc st.1 st.2.1 vs then 1 else 0) ∧
      (applyOp st (Op.ibatch vs)).2.1.versionOf =
        st.2.1.versionOf +
          (if ibatchIdxRealloc st.1 st.2.1 vs then 1 else 0)) := by
  refine ⟨fun st ops => applyOps_version_mono st ops,
    fun st m => applyOp_upd_versions st m,
    fun st m => applyOp_updIdx_versions st m,
    fun st ps => ⟨applyOp_batch_vtx_version st ps,
      applyOp_batch_idx_version st ps⟩,
    fun st vs => ⟨applyOp_ibatch_vtx_version st vs,
      applyOp_ibatch_idx_version st vs⟩⟩

/-- C2: for a batch with at least one push, scope exit either (when the
mirror's reserved-storage byte size exceeds the device buffer's byte size)
allocates a fresh device buffer of exactly the mirror's reserved byte
capacity, uploads the entire mirror in one write at offset 0, replaces the
buffer reference and bumps `version` by 1 — or (otherwise) uploads only
the mirror's byte range from the batch start to its end at the matching
byte offset of the existing buffer, leaving `version`, identity and size
unchanged. -/
theorem c2_batch_commit {α : Type} [Pod α] (b : BackedBuffer α)
    (pushes : List α) (d : Device) (q : Queue) (hne : pushes ≠ [])
    (hcap : b.data.data.length ≤ b.data.cap) :
    (b.buffer.size < (pushAll b pushes).data.cap * Pod.sz α →
      (runBatch b pushes d q).1.buffer.id = d.nextId ∧
      (runBatch b pushes d q).1.buffer.size =
        (pushAll b pushes).data.cap * Pod.sz α ∧
      (runBatch b pushes d q).1.buffer.content =
        castSlice (b.data.data ++ pushes) ++
          List.replicate ((pushAll b pushes).data.cap * Pod.sz α -
            (b.data.data.length + pushes.length) * Pod.sz α) 0 ∧
      (runBatch b pushes d q).1.versionOf = b.versionOf + 1 ∧
      (runBatch b pushes d q).2.1.nextId = d.nextId + 1 ∧
      (runBatch b pushes d q).2.2 =
        q ++ [{ bufId := d.nextId, offset := 0,
                bytes := castSlice (b.data.data ++ pushes) }]) ∧
    (¬ b.buffer.size < (pushAll b pushes).data.cap * Pod.sz α →
      (runBatch b pushes d q).1.buffer.id = b.buffer.id ∧
      (runBatch b pushes d q).1.buffer.size = b.buffer.size ∧
      (runBatch b pushes d q).1.buffer.content =
        writeBytes b.buffer.content (b.data.data.length * Pod.sz α)
          (castSlice pushes) ∧
      (runBatch b pushes d q).1.versionOf = b.versionOf ∧
      (runBatch b pushes d q).2.1 = d ∧
      (runBatch b pushes d q).2.2 =
        q ++ [{ bufId := b.buffer.id,
                offset := b.data.data.length * Pod.sz α,
                bytes := castSlice pushes }]) := by
  have hdata : (pushAll b pushes).data.data = b.data.data ++ pushes :=
    pushAll_data pushes b
  have hbuf : (pushAll b pushes).buffer = b.buffer := pushAll_buffer pushes b
  have hver : (pushAll b pushes).version = b.version := pushAll_version pushes b
  have hlen' : (pushAll b pushes).data.data.length =
      b.data.data.length + pushes.length := by
    rw [hdata]; simp
  have hstart : batchStart b < (pushAll b pushes).data.data.length := by
    rw [hlen']
    have := List.length_pos.mpr hne
    simp only [batchStart]
    omega
  have hle : (pushAll b pushes).data.data.length ≤ (pushAll b pushes).data.cap :=
    pushAll_le_cap pushes b hcap
  have hbytes : (castSlice (pushAll b pushes).data.data).length =
      (b.data.data.length + pushes.length) * Pod.sz α := by
    rw [castSlice_length, hlen']
  have hdrop : (pushAll b pushes).data.data.drop (batchStart b) = pushes := by
    rw [hdata]
    simp [batchStart, List.drop_left]
  have hmul : (b.data.data.length + pushes.length) * Pod.sz α ≤
      (pushAll b pushes).data.cap * Pod.sz α := by
    apply Nat.mul_le_mul_right
    rw [← hlen']
    exact hle
  constructor
  · intro hsz
    have hsz' : (pushAll b pushes).buffer.size <
        (pushAll b pushes).data.cap * Pod.sz α := by
      rw [hbuf]; exact hsz
    have hinb : 0 + (castSlice (pushAll b pushes).data.data).length ≤
        ((d.createBuffer ((pushAll b pushes).data.cap * Pod.sz α)
          (pushAll b pushes).usage).1).size := by
      simp only [Device.createBuffer, hbytes, Nat.zero_add]
      exact hmul
    unfold runBatch batchDrop
    rw [if_pos hstart, if_pos hsz']
    refine ⟨?_, ?_, ?_, ?_, ?_, ?_⟩
    · show (queueWrite q _ 0 _).1.id = d.nextId
      rw [queueWrite_fst_id]
      simp [Device.createBuffer]
    · show (queueWrite q _ 0 _).1.size = _
      rw [queueWrite_fst_size]
      simp [Device.createBuffer]
    · show (queueWrite q _ 0 _).1.content = _
      rw [queueWrite_fst_content_of_le _ _ _ _ hinb]
      show writeBytes (List.replicate _ 0) 0 _ = _
      rw [writeBytes_replicate_zero, hbytes, hdata]
    · show (pushAll b pushes).version + 1 = b.version + 1
      rw [hver]
    · rfl
    · show (queueWrite q _ 0 _).2 = _
      rw [queueWrite_snd, hdata]
      simp [Device.createBuffer]
  · intro hsz
    have hsz' : ¬ (pushAll b pushes).buffer.size <
        (pushAll b pushes).data.cap * Pod.sz α := by
      rw [hbuf]; exact hsz
    have hinb : batchStart b * Pod.sz α +
        (castSlice ((pushAll b pushes).data.data.drop (batchStart b))).length ≤
        (pushAll b pushes).buffer.size := by
      rw [castSlice_length, hbuf]
      have h1 : batchStart b +
          ((pushAll b pushes).data.data.drop (batchStart b)).length =
          (pushAll b pushes).data.data.length := by
        simp only [batchStart, List.length_drop]
        omega
      have h2 : (pushAll b pushes).data.cap * Pod.sz α ≤ b.buffer.size := by
        rw [hbuf] at hsz'
        omega
      calc batchStart b * Pod.sz α +
          ((pushAll b pushes).data.data.drop (batchStart b)).length * Pod.sz α
          = (batchStart b +
              ((pushAll b pushes).data.data.drop (batchStart b)).length) *
              Pod.sz α := by ring
        _ = (pushAll b pushes).data.data.length * Pod.sz α := by rw [h1]
        _ ≤ (pushAll b pushes).data.cap * Pod.sz α :=
            Nat.mul_le_mul_right (Pod.sz α) hle
        _ ≤ b.buffer.size := h2
    unfold runBatch batchDrop
    rw [if_pos hstart, if_neg hsz']
    refine ⟨?_, ?_, ?_, ?_, ?_, ?_⟩
    · show (queueWrite q _ _ _).1.id = _
      rw [queueWrite_fst_id, hbuf]
    · show (queueWrite q _ _ _).1.size = _
      rw [queueWrite_fst_size, hbuf]
    · show (queueWrite q _ _ _).1.content = _
      rw [queueWrite_fst_content_of_le _ _ _ _ hinb, hbuf, hdrop]
      rfl
    · show (pushAll b pushes).version = b.version
      exact hver
    · rfl
    · show (queueWrite q _ _ _).2 = _
      rw [queueWrite_snd, hbuf, hdrop]
      rfl

theorem batchDrop_realloc_fields {α : Type} [Pod α] (s : Nat)
    (b : BackedBuffer α) (d : Device) (q : Queue)
    (h1 : s < b.data.data.length)
    (h2 : b.buffer.size < b.data.cap * Pod.sz α) :
    (batchDrop s b d q).1.buffer.id = d.nextId ∧
      (batchDrop s b d q).1.buffer.size = b.data.cap * Pod.sz α ∧
      (batchDrop s b d q).2.1.nextId = d.nextId + 1 := by
  unfold batchDrop
  rw [if_pos h1, if_pos h2]
  refine ⟨?_, ?_, rfl⟩
  · show (queueWrite q _ 0 _).1.id = d.nextId
    rw [queueWrite_fst_id]
    simp [Device.createBuffer]
  · show (queueWrite q _ 0 _).1.size = _
    rw [queueWrite_fst_size]
    simp [Device.createBuffer]

theorem batchDrop_inplace_fields {α : Type} [Pod α] (s : Nat)
    (b : BackedBuffer α) (d : Device) (q : Queue)
    (h2 : ¬ b.buffer.size < b.data.cap * Pod.sz α) :
    (batchDrop s b d q).1.buffer.id = b.buffer.id ∧
      (batchDrop s b d q).1.buffer.size = b.buffer.size ∧
      (batchDrop s b d q).2.1 = d := by
  unfold batchDrop
  by_cases h1 : s < b.data.data.length
  · rw [if_pos h1, if_neg h2]
    refine ⟨?_, ?_, rfl⟩
    · show (queueWrite q _ _ _).1.id = b.buffer.id
      rw [queueWrite_fst_id]
    · show (queueWrite q _ _ _).1.size = _
      rw [queueWrite_fst_size]
  · rw [if_neg h1]
    exact ⟨rfl, rfl, rfl⟩

theorem c2_batch_commit_witness :
    ([({ x := 1 } : V4), { x := 2 }] ≠ [] ∧
      w2buf.data.data.length ≤ w2buf.data.cap) ∧
    ((w2buf.buffer.size <
        (pushAll w2buf [{ x := 1 }, { x := 2 }]).data.cap * Pod.sz V4 →
      (runBatch w2buf [{ x := 1 }, { x := 2 }] w2dev []).1.buffer.id =
        w2dev.nextId ∧
      (runBatch w2buf [{ x := 1 }, { x := 2 }] w2dev []).1.buffer.size =
        (pushAll w2buf [{ x := 1 }, { x := 2 }]).data.cap * Pod.sz V4 ∧
      (runBatch w2buf [{ x := 1 }, { x := 2 }] w2dev []).1.buffer.content =
        castSlice (w2buf.data.data ++ [{ x := 1 }, { x := 2 }]) ++
          List.replicate
            ((pushAll w2buf [{ x := 1 }, { x := 2 }]).data.cap * Pod.sz V4 -
              (w2buf.data.data.length + 2) * Pod.sz V4) 0 ∧
      (runBatch w2buf [{ x := 1 }, { x := 2 }] w2dev []).1.versionOf =
        w2buf.versionOf + 1 ∧
      (runBatch w2buf [{ x := 1 }, { x := 2 }] w2dev []).2.1.nextId =
        w2dev.nextId + 1 ∧
      (runBatch w2buf [{ x := 1 }, { x := 2 }] w2dev []).2.2 =
        [] ++ [{ bufId := w2dev.nextId, offset := 0,
                 bytes := castSlice (w2buf.data.data ++
                   [({ x := 1 } : V4), { x := 2 }]) }]) ∧
    (¬ w2buf.buffer.size <
        (pushAll w2buf [{ x := 1 }, { x := 2 }]).data.cap * Pod.sz V4 →
      (runBatch w2buf [{ x := 1 }, { x := 2 }] w2dev []).1.buffer.id =
        w2buf.buffer.id ∧
      (runBatch w2buf [{ x := 1 }, { x := 2 }] w2dev []).1.buffer.size =
        w2buf.buffer.size ∧
      (runBatch w2buf [{ x := 1 }, { x := 2 }] w2dev []).1.buffer.content =
        writeBytes w2buf.buffer.content (w2buf.data.data.length * Pod.sz V4)
          (castSlice [({ x := 1 } : V4), { x := 2 }]) ∧
      (runBatch w2buf [{ x := 1 }, { x := 2 }] w2dev []).1.versionOf =
        w2buf.versionOf ∧
      (runBatch w2buf [{ x := 1 }, { x := 2 }] w2dev []).2.1 = w2dev ∧
      (runBatch w2buf [{ x := 1 }, { x := 2 }] w2dev []).2.2 =
        [] ++ [{ bufId := w2buf.buffer.id,
                 offset := w2buf.data.data.length * Pod.sz V4,
                 bytes := castSlice [({ x := 1 } : V4), { x := 2 }] }])) :=
  ⟨⟨by decide, by decide⟩, by
    have h := c2_batch_commit w2buf [{ x := 1 }, { x := 2 }] w2dev []
      (by decide) (by decide)
    simpa using h⟩

/-- C7: starting from a fresh buffer of capacity `C`, a single batch
appending `C+1` records triggers exactly one reallocation at scope exit
(version goes to 1, exactly one fresh allocation), sized to hold at least
`C+1` records; a following batch appending one more record that still fits
the grown mirror capacity commits as a partial write — version, buffer
identity, buffer size and allocator state all unchanged. -/
theorem c7_amortized_growth {α : Type} [Pod α] (d : Device) (C usage : Nat)
    (pushes : List α) (q : Queue) (hsz : 0 < Pod.sz α)
    (hlen : pushes.length = C + 1) :
    (runBatch (BackedBuffer.withCapacity α d C usage).1 pushes
        (BackedBuffer.withCapacity α d C usage).2 q).1.versionOf = 1 ∧
    (runBatch (BackedBuffer.withCapacity α d C usage).1 pushes
        (BackedBuffer.withCapacity α d C usage).2 q).2.1.nextId =
      (BackedBuffer.withCapacity α d C usage).2.nextId + 1 ∧
    (C + 1) * Pod.sz α ≤
      (runBatch (BackedBuffer.withCapacity α d C usage).1 pushes
        (BackedBuffer.withCapacity α d C usage).2 q).1.buffer.size ∧
    (∀ v : α,
      C + 2 ≤
        (runBatch (BackedBuffer.withCapacity α d C usage).1 pushes
          (BackedBuffer.withCapacity α d C usage).2 q).1.data.cap →
      ((runBatch
          (runBatch (BackedBuffer.withCapacity α d C usage).1 pushes
            (BackedBuffer.withCapacity α d C usage).2 q).1 [v]
          (runBatch (BackedBuffer.withCapacity α d C usage).1 pushes
            (BackedBuffer.withCapacity α d C usage).2 q).2.1
          (runBatch (BackedBuffer.withCapacity α d C usage).1 pushes
            (BackedBuffer.withCapacity α d C usage).2 q).2.2).1.versionOf =
        (runBatch (BackedBuffer.withCapacity α d C usage).1 pushes
          (BackedBuffer.withCapacity α d C usage).2 q).1.versionOf ∧
      (runBatch
          (runBatch (BackedBuffer.withCapacity α d C usage).1 pushes
            (BackedBuffer.withCapacity α d C usage).2 q).1 [v]
          (runBatch (BackedBuffer.withCapacity α d C usage).1 pushes
            (BackedBuffer.withCapacity α d C usage).2 q).2.1
          (runBatch (BackedBuffer.withCapacity α d C usage).1 pushes
            (BackedBuffer.withCapacity α d C usage).2 q).2.2).1.buffer.id =
        (runBatch (BackedBuffer.withCapacity α d C usage).1 pushes
          (BackedBuffer.withCapacity α d C usage).2 q).1.buffer.id ∧
      (runBatch
          (runBatch (BackedBuffer.withCapacity α d C usage).1 pushes
            (BackedBuffer.withCapacity α d C usage).2 q).1 [v]
          (runBatch (BackedBuffer.withCapacity α d C usage).1 pushes
            (BackedBuffer.withCapacity α d C usage).2 q).2.1
          (runBatch (BackedBuffer.withCapacity α d C usage).1 pushes
            (BackedBuffer.withCapacity α d C usage).2 q).2.2).1.buffer.size =
        (runBatch (BackedBuffer.withCapacity α d C usage).1 pushes
          (BackedBuffer.withCapacity α d C usage).2 q).1.buffer.size ∧
      (runBatch
          (runBatch (BackedBuffer.withCapacity α d C usage).1 pushes
            (BackedBuffer.withCapacity α d C usage).2 q).1 [v]
          (runBatch (BackedBuffer.withCapacity α d C usage).1 pushes
            (BackedBuffer.withCapacity α d C usage).2 q).2.1
          (runBatch (BackedBuffer.withCapacity α d C usage).1 pushes
            (BackedBuffer.withCapacity α d C usage).2 q).2.2).2.1 =
        (runBatch (BackedBuffer.withCapacity α d C usage).1 pushes
          (BackedBuffer.withCapacity α d C usage).2 q).2.1)) := by
  set b0 := (BackedBuffer.withCapacity α d C usage).1 with hb0
  set d0 := (BackedBuffer.withCapacity α d C usage).2 with hd0
  have hb0data : b0.data.data = [] := rfl
  have hb0cap : b0.data.cap = C := rfl
  have hb0size : b0.buffer.size = C * Pod.sz α := rfl
  have hb0ver : b0.version = 0 := rfl
  have hdata1 : (pushAll b0 pushes).data.data = pushes := by
    rw [pushAll_data, hb0data, List.nil_append]
  have hlen1 : (pushAll b0 pushes).data.data.length = C + 1 := by
    rw [hdata1, hlen]
  have hcap1 : C + 1 ≤ (pushAll b0 pushes).data.cap := by
    have := pushAll_le_cap pushes b0 (by rw [hb0data, hb0cap]; simp)
    rw [hlen1] at this
    exact this
  have hne : pushes ≠ [] := by
    intro hcontra
    rw [hcontra] at hlen
    simp at hlen
  have hstart : batchStart b0 < (pushAll b0 pushes).data.data.length := by
    simp only [batchStart, hb0data, List.length_nil, hlen1]
    omega
  have hrsz : b0.buffer.size < (pushAll b0 pushes).data.cap * Pod.sz α := by
    rw [hb0size]
    have : C < (pushAll b0 pushes).data.cap := by omega
    exact Nat.mul_lt_mul_of_lt_of_le this (le_refl _) hsz
  have hfields := batchDrop_realloc_fields (batchStart b0) (pushAll b0 pushes)
    d0 q hstart (by rw [pushAll_buffer]; exact hrsz)
  have hver1 : (runBatch b0 pushes d0 q).1.versionOf = 1 := by
    show (runBatch b0 pushes d0 q).1.version = 1
    unfold runBatch
    rw [batchDrop_version, pushAll_version, hb0ver, pushAll_buffer,
      if_pos ⟨hstart, hrsz⟩]
  have hsize1 : (runBatch b0 pushes d0 q).1.buffer.size =
      (pushAll b0 pushes).data.cap * Pod.sz α := hfields.2.1
  have hdata2 : (runBatch b0 pushes d0 q).1.data = (pushAll b0 pushes).data := by
    unfold runBatch
    exact batchDrop_data _ _ _ _
  refine ⟨hver1, hfields.2.2, ?_, ?_⟩
  · rw [hsize1]
    exact Nat.mul_le_mul_right (Pod.sz α) hcap1
  · intro v hfit
    set b1 := (runBatch b0 pushes d0 q).1 with hb1
    rw [hdata2] at hfit
    have hb1len : b1.data.data.length = C + 1 := by
      rw [hb1, hdata2, hlen1]
    have hb1cap : C + 2 ≤ b1.data.cap := by
      rw [hb1, hdata2]; exact hfit
    have hpush1 : (pushAll b1 [v]).data.cap = b1.data.cap := by
      show ((b1.data).push v).cap = b1.data.cap
      apply RVec.push_cap_of_lt
      omega
    have hnr : ¬ (pushAll b1 [v]).buffer.size <
        (pushAll b1 [v]).data.cap * Pod.sz α := by
      rw [pushAll_buffer, hpush1, hsize1]
      have hcapeq : b1.data.cap = (pushAll b0 pushes).data.cap := by
        rw [hdata2]
      rw [hcapeq]
      omega
    have hf2 := batchDrop_inplace_fields (batchStart b1) (pushAll b1 [v])
      (runBatch b0 pushes d0 q).2.1 (runBatch b0 pushes d0 q).2.2 hnr
    refine ⟨?_, ?_, ?_, ?_⟩
    · show (runBatch b1 [v] _ _).1.version = b1.version
      unfold runBatch
      rw [batchDrop_version, pushAll_version, pushAll_buffer]
      have : ¬ (b1.buffer.size < (pushAll b1 [v]).data.cap * Pod.sz α) := by
        rw [pushAll_buffer] at hnr
        exact hnr
      simp [this]
    · exact hf2.1.trans (by rw [pushAll_buffer])
    · exact hf2.2.1.trans (by rw [pushAll_buffer])
    · exact hf2.2.2

theorem c7_amortized_growth_witness :
    (0 < Pod.sz V4) ∧
    ([({ x := 1 } : V4), { x := 2 }, { x := 3 }].length = 2 + 1) ∧
    w7r1.1.versionOf = 1 ∧
    w7r1.2.1.nextId = (BackedBuffer.withCapacity V4 dev0 2 0).2.nextId + 1 ∧
    (2 + 1) * Pod.sz V4 ≤ w7r1.1.buffer.size ∧
    (2 + 2 ≤ w7r1.1.data.cap) ∧
    ((runBatch w7r1.1 [{ x := 4 }] w7r1.2.1 w7r1.2.2).1.versionOf =
        w7r1.1.versionOf ∧
      (runBatch w7r1.1 [{ x := 4 }] w7r1.2.1 w7r1.2.2).1.buffer.id =
        w7r1.1.buffer.id ∧
      (runBatch w7r1.1 [{ x := 4 }] w7r1.2.1 w7r1.2.2).1.buffer.size =
        w7r1.1.buffer.size ∧
      (runBatch w7r1.1 [{ x := 4 }] w7r1.2.1 w7r1.2.2).2.1 = w7r1.2.1) :=
  have H := @c7_amortized_growth V4 _ dev0 2 0
    [{ x := 1 }, { x := 2 }, { x := 3 }] [] (by decide) (by decide)
  ⟨by decide, by decide, H.1, H.2.1, H.2.2.1, by decide,
    H.2.2.2 { x := 4 } (by decide)⟩

theorem batchDrop_snd_queue {α : Type} [Pod α] (s : Nat) (b : BackedBuffer α)
    (d : Device) (q : Queue) (h1 : s < b.data.data.length) :
    (batchDrop s b d q).2.2 =
      q ++ [if b.buffer.size < b.data.cap * Pod.sz α then
        { bufId := d.nextId, offset := 0, bytes := castSlice b.data.data }
      else
        { bufId := b.buffer.id, offset := s * Pod.sz α,
          bytes := castSlice (b.data.data.drop s) }] := by
  unfold batchDrop
  rw [if_pos h1]
  by_cases h2 : b.buffer.size < b.data.cap * Pod.sz α
  · rw [if_pos h2, if_pos h2]
    show (queueWrite q _ 0 _).2 = _
    rw [queueWrite_snd]
    simp [Device.createBuffer]
  · rw [if_neg h2, if_neg h2]
    show (queueWrite q _ _ _).2 = _
    rw [queueWrite_snd]

theorem batchDrop_snd_device {α : Type} [Pod α] (s : Nat) (b : BackedBuffer α)
    (d : Device) (q : Queue) :
    (batchDrop s b d q).2.1 =
      if s < b.data.data.length ∧ b.buffer.size < b.data.cap * Pod.sz α
        then { nextId := d.nextId + 1 } else d := by
  unfold batchDrop
  by_cases h1 : s < b.data.data.length
  · by_cases h2 : b.buffer.size < b.data.cap * Pod.sz α
    · rw [if_pos h1, if_pos h2, if_pos ⟨h1, h2⟩]
      rfl
    · rw [if_pos h1, if_neg h2, if_neg (by tauto)]
  · rw [if_neg h1, if_neg (by tauto)]

theorem indexedDropIndices_snd_queue (α : Type) [Pod α] (s : Nat)
    (bi : BackedBuffer Nat) (d : Device) (q : Queue)
    (h1 : s < bi.data.data.length) :
    (indexedDropIndices α s bi d q).2.2 =
      q ++ [if bi.buffer.size < bi.data.cap * Pod.sz α then
        { bufId := d.nextId, offset := 0, bytes := castSlice bi.data.data }
      else
        { bufId := bi.buffer.id, offset := s * Pod.sz α,
          bytes := castSlice (bi.data.data.drop s) }] := by
  unfold indexedDropIndices
  rw [if_pos h1]
  by_cases h2 : bi.buffer.size < bi.data.cap * Pod.sz α
  · rw [if_pos h2, if_pos h2]
    show (queueWrite q _ 0 _).2 = _
    rw [queueWrite_snd]
    simp [Device.createBuffer]
  · rw [if_neg h2, if_neg h2]
    show (queueWrite q _ _ _).2 = _
    rw [queueWrite_snd]

theorem indexedDropIndices_snd_device (α : Type) [Pod α] (s : Nat)
    (bi : BackedBuffer Nat) (d : Device) (q : Queue) :
    (indexedDropIndices α s bi d q).2.1 =
      if s < bi.data.data.length ∧ bi.buffer.size < bi.data.cap * Pod.sz α
        then { nextId := d.nextId + 1 } else d := by
  unfold indexedDropIndices
  by_cases h1 : s < bi.data.data.length
  · by_cases h2 : bi.buffer.size < bi.data.cap * Pod.sz α
    · rw [if_pos h1, if_pos h2, if_pos ⟨h1, h2⟩]
      rfl
    · rw [if_pos h1, if_neg h2, if_neg (by tauto)]
  · rw [if_neg h1, if_neg (by tauto)]

/-- C1 (code bug witness): after two completed indexed batches over an
8-byte vertex type, the index `BackedBuffer`'s device content disagrees
with its mirror on the first `len()` records: the mirror is `[0, 1]` but
the device's first 8 bytes decode to `[0, 0]`, because the partial index
write of `IndexedBatch::drop` (buffer.rs line 194) placed the second
record at byte offset `start_index * size_of::<T>() = 8` instead of
`start_index * size_of::<u32>() = 4`. -/
theorem c1_mirror_device_mismatch :
    scenRun2.2.1.len = 2 ∧
    scenRun2.2.1.data.data = [0, 1] ∧
    scenRun2.2.1.buffer.content.take (scenRun2.2.1.len * Pod.sz Nat) =
      [0, 0, 0, 0, 0, 0, 0, 0] ∧
    castSlice scenRun2.2.1.data.data = [0, 0, 0, 0, 1, 0, 0, 0] ∧
    scenRun2.2.1.buffer.content.take (scenRun2.2.1.len * Pod.sz Nat) ≠
      castSlice scenRun2.2.1.data.data := by
  decide

/-- C4 (code bug witness): at the first indexed batch, the index buffer's
reallocation decision judged by its own capacity in index-element bytes
(`cap * 4 = 16 ≤ 16`) prescribes a partial write, but the source decides
with the vertex element size (`cap * 8 = 32 > 16`, buffer.rs line 179)
and reallocates: the index buffer's version is bumped and its device
buffer is replaced by a fresh one. -/
theorem c4_index_size_slip :
    codeIndexRealloc V8 (ibPushAll scenV.1 scenI.1 [{ x := 5, y := 6 }]).2 =
      true ∧
    specIndexRealloc (ibPushAll scenV.1 scenI.1 [{ x := 5, y := 6 }]).2 =
      false ∧
    scenRun1.2.1.versionOf = scenI.1.versionOf + 1 ∧
    scenRun1.2.1.buffer.id ≠ scenI.1.buffer.id ∧
    Pod.sz V8 ≠ Pod.sz Nat := by
  decide

/-- C5 counterexample: in the first indexed batch's scope exit, the write
trace records the index-buffer upload (to buffer id 2, the reallocated
index buffer) BEFORE the vertex-buffer upload (to buffer id 0): the inner
vertex Append Batch's commit logic does not run first, because Rust runs
`IndexedBatch::drop` before dropping its `batch` field. -/
theorem c5_counterexample_order :
    scenRun1.2.2.2.map WriteEvent.bufId = [2, 0] ∧
    scenRun1.1.buffer.id = 0 ∧
    scenRun1.2.1.buffer.id = 2 ∧
    (scenRun1.2.2.2.map WriteEvent.bufId).head? ≠
      some scenRun1.1.buffer.id := by
  decide

/-- C5 (amended): on scope exit of an indexed batch with pending records
on both sides, exactly two writes are enqueued; the FIRST is the index
buffer's commit (its bytes are the index mirror data, full or from
`start_index`, targeting the index buffer's old identity or the freshly
allocated one) and only the SECOND is the vertex Append Batch's commit. -/
theorem c5_index_commit_first {α : Type} [Pod α] (sv si : Nat)
    (bv : BackedBuffer α) (bi : BackedBuffer Nat) (d : Device) (q : Queue)
    (hv : sv < bv.data.data.length) (hi : si < bi.data.data.length) :
    ∃ eIdx eVtx : WriteEvent,
      (indexedBatchDrop sv si bv bi d q).2.2.2 = q ++ [eIdx, eVtx] ∧
      (eIdx.bufId = bi.buffer.id ∨ eIdx.bufId = d.nextId) ∧
      (eIdx.bytes = castSlice bi.data.data ∨
        eIdx.bytes = castSlice (bi.data.data.drop si)) ∧
      (eVtx.bufId = bv.buffer.id ∨ eVtx.bufId = d.nextId ∨
        eVtx.bufId = d.nextId + 1) ∧
      (eVtx.bytes = castSlice bv.data.data ∨
        eVtx.bytes = castSlice (bv.data.data.drop sv)) := by
  have hq1 := indexedDropIndices_snd_queue α si bi d q hi
  have hd1 := indexedDropIndices_snd_device α si bi d q
  have hq2 := batchDrop_snd_queue sv bv ((indexedDropIndices α si bi d q).2.1)
    ((indexedDropIndices α si bi d q).2.2) hv
  refine ⟨if bi.buffer.size < bi.data.cap * Pod.sz α then
      { bufId := d.nextId, offset := 0, bytes := castSlice bi.data.data }
    else
      { bufId := bi.buffer.id, offset := si * Pod.sz α,
        bytes := castSlice (bi.data.data.drop si) },
    if bv.buffer.size < bv.data.cap * Pod.sz α then
      { bufId := ((indexedDropIndices α si bi d q).2.1).nextId, offset := 0,
        bytes := castSlice bv.data.data }
    else
      { bufId := bv.buffer.id, offset := sv * Pod.sz α,
        bytes := castSlice (bv.data.data.drop sv) }, ?_, ?_, ?_, ?_, ?_⟩
  · show (batchDrop sv bv ((indexedDropIndices α si bi d q).2.1)
      ((indexedDropIndices α si bi d q).2.2)).2.2 = _
    rw [hq2, hq1]
    by_cases h2 : bv.buffer.size < bv.data.cap * Pod.sz α
    · rw [if_pos h2]
      simp
    · rw [if_neg h2]
      simp
  · by_cases h2 : bi.buffer.size < bi.data.cap * Pod.sz α
    · rw [if_pos h2]
      right
      rfl
    · rw [if_neg h2]
      left
      rfl
  · by_cases h2 : bi.buffer.size < bi.data.cap * Pod.sz α
    · rw [if_pos h2]
      left
      rfl
    · rw [if_neg h2]
      right
      rfl
  · by_cases h2 : bv.buffer.size < bv.data.cap * Pod.sz α
    · rw [if_pos h2]
      rw [hd1]
      by_cases h3 : si < bi.data.data.length ∧
          bi.buffer.size < bi.data.cap * Pod.sz α
      · rw [if_pos h3]
        right; right
        rfl
      · rw [if_neg h3]
        right; left
        rfl
    · rw [if_neg h2]
      left
      rfl
  · by_cases h2 : bv.buffer.size < bv.data.cap * Pod.sz α
    · rw [if_pos h2]
      left
      rfl
    · rw [if_neg h2]
      right
      rfl

theorem c5_index_commit_first_witness :
    ((0 < w5pair.1.data.data.length ∧ 0 < w5pair.2.data.data.length) ∧
      ∃ eIdx eVtx : WriteEvent,
        (indexedBatchDrop 0 0 w5pair.1 w5pair.2 scenI.2 []).2.2.2 =
          [] ++ [eIdx, eVtx] ∧
        (eIdx.bufId = w5pair.2.buffer.id ∨ eIdx.bufId = scenI.2.nextId) ∧
        (eIdx.bytes = castSlice w5pair.2.data.data ∨
          eIdx.bytes = castSlice (w5pair.2.data.data.drop 0)) ∧
        (eVtx.bufId = w5pair.1.buffer.id ∨ eVtx.bufId = scenI.2.nextId ∨
          eVtx.bufId = scenI.2.nextId + 1) ∧
        (eVtx.bytes = castSlice w5pair.1.data.data ∨
          eVtx.bytes = castSlice (w5pair.1.data.data.drop 0))) :=
  ⟨⟨by decide, by decide⟩,
    c5_index_commit_first 0 0 w5pair.1 w5pair.2 scenI.2 []
      (by decide) (by decide)⟩

end BufferModel

